import Mathlib

/-!
# go-quake-watch: the refresh / cache / serve core of `main.go`

A shallow embedding of `fetchEarthquakes`, `getEarthquakes` and the per-tick
body of `streamEarthquakes`, together with the two package-level variables
`earthquakeCache` and `lastUpdate` they share.

Modelling conventions

* `float64` values are kept as their IEEE-754 binary64 bit pattern.  The program
  only copies them and compares one of them with zero, and both operations are
  exact on bit patterns.
* `time.Time` is kept as a pair (Unix seconds, nanoseconds).  The clock reading
  `time.Now()` is an explicit argument.
* The outcome of `http.Get`, `io.ReadAll` and `json.Unmarshal` is an explicit
  argument (`FetchResult`): these are library calls whose result the program
  only inspects through `err != nil`.
* A Go run-time panic is the `error` side of `Except GoPanic`.
* `encoding/json` refuses two kinds of value the program can hand it: a
  `float64` that is NaN or infinite, and a `time.Time` whose year, in its
  location, is outside 0..9999.  Both handlers discard the error, so the
  encoded value is an `Option`: `none` stands for the empty output of a failed
  encoding.  The local time zone of the process is an explicit argument.
* A slice is a `List`; the `nil` slice and the empty slice are both `[]`
  (they differ only in how `encoding/json` prints them: `null` against `[]`).
-/

namespace QuakeWatch

/-! ## `float64` -/

/-- An IEEE-754 binary64 value (Go `float64`), kept as its 64-bit pattern. -/
structure Float64 where
  bits : Nat
deriving DecidableEq, Repr

namespace Float64

/-- Sign bit (bit 63). -/
def signBit (x : Float64) : Nat := x.bits / 2 ^ 63 % 2

/-- Biased exponent field (bits 52..62). -/
def expField (x : Float64) : Nat := x.bits / 2 ^ 52 % 2048

/-- Fraction field (bits 0..51). -/
def fracField (x : Float64) : Nat := x.bits % 2 ^ 52

/-- Not-a-number: all exponent bits set and a non-zero fraction. -/
def isNaN (x : Float64) : Bool := x.expField == 2047 && x.fracField != 0

/-- Positive or negative zero. -/
def isZero (x : Float64) : Bool := x.expField == 0 && x.fracField == 0

/-- The Go comparison `x > 0`: false for NaN and for both zeros, otherwise
decided by the sign bit. -/
def gtZero (x : Float64) : Bool := !x.isNaN && !x.isZero && x.signBit == 0

/-- The Go comparison `x <= 0`: false for NaN, true for both zeros and for every
other value with the sign bit set. -/
def leZero (x : Float64) : Bool := !x.isNaN && (x.isZero || x.signBit == 1)

/-- Neither NaN nor an infinity (the exponent bits are not all set).  These are
the values `encoding/json` encodes; for the others it returns an
`UnsupportedValueError`. -/
def isFinite (x : Float64) : Bool := x.expField != 2047

end Float64

/-! ## `time.Time` -/

namespace time

/-- An instant: whole seconds since the Unix epoch and the nanoseconds within
that second. -/
structure Time where
  sec : Int
  nsec : Int
deriving DecidableEq, Repr

/-- The zero value `time.Time{}`: January 1 of year 1, 00:00:00 UTC. -/
def zero : Time := ⟨-62135596800, 0⟩

/-- Library function `time.Unix(sec, nsec)`: the instant `sec` seconds and `nsec`
nanoseconds after the epoch, with `nsec` brought into `[0, 1e9)`.  Go integer
division truncates toward zero (`Int.tdiv`). -/
def Unix (sec nsec : Int) : Time :=
  if nsec < 0 ∨ nsec ≥ 1000000000 then
    let n := Int.tdiv nsec 1000000000
    let sec := sec + n
    let nsec := nsec - n * 1000000000
    if nsec < 0 then ⟨sec - 1, nsec + 1000000000⟩ else ⟨sec, nsec⟩
  else ⟨sec, nsec⟩

/-- The instant as an exact count of nanoseconds since the epoch (the value of
`Time.UnixNano` without the wrap to 64 bits). -/
def Time.nanos (t : Time) : Int := t.sec * 1000000000 + t.nsec

/-- The local time zone of the process (`time.Local`): the offset in seconds east
of UTC in force at a given Unix second, always less than a day in size.  The
results of `time.Unix` and `time.Now` are in this location. -/
structure Location where
  offset : Int → Int
  bounded : ∀ s, -86400 < offset s ∧ offset s < 86400

/-- The location with offset zero throughout. -/
def UTC : Location :=
  ⟨fun _ => 0, fun _ => ⟨(by decide : (-86400 : Int) < 0), (by decide : (0 : Int) < 86400)⟩⟩

/-- Library method `Time.MarshalJSON` returns no error: the year of `t` in the
location is within 0..9999, that is, the local clock reads at least
0000-01-01T00:00:00 (62167219200 s before the epoch) and less than
10000-01-01T00:00:00 (253402300800 s after it).  The zero value `time.Time{}`
is in UTC, where its year is 1; under every offset of less than a day its year
is 0 or 1, so the test gives the same answer for it. -/
def Time.jsonEncodes (loc : Location) (t : Time) : Bool :=
  decide (-62167219200 ≤ t.sec + loc.offset t.sec) &&
    decide (t.sec + loc.offset t.sec < 253402300800)

end time

/-! ## Data model (`main.go` lines 17-48) -/

/-- `type Earthquake struct` (lines 17-27). -/
structure Earthquake where
  ID : String
  Magnitude : Float64
  Place : String
  Time : time.Time
  Latitude : Float64
  Longitude : Float64
  Depth : Float64
  URL : String
  Alert : String
deriving DecidableEq, Repr

/-- The record is accepted by `encoding/json`: its four numbers are finite and
its time has a year within 0..9999 (strings are always accepted). -/
def Earthquake.jsonEncodes (loc : time.Location) (e : Earthquake) : Bool :=
  e.Magnitude.isFinite && e.Time.jsonEncodes loc && e.Latitude.isFinite &&
    e.Longitude.isFinite && e.Depth.isFinite

/-- The anonymous struct `Properties` of a feature (lines 32-38). -/
structure Properties where
  Mag : Float64
  Place : String
  Time : Int
  URL : String
  Alert : String
deriving DecidableEq, Repr

/-- The anonymous struct `Geometry` of a feature (lines 39-41). -/
structure Geometry where
  Coordinates : List Float64
deriving DecidableEq, Repr

/-- One element of `USGSResponse.Features` (lines 30-42). -/
structure Feature where
  ID : String
  Properties : Properties
  Geometry : Geometry
deriving DecidableEq, Repr

/-- `type USGSResponse struct` (lines 29-43). -/
structure USGSResponse where
  Features : List Feature
deriving DecidableEq, Repr

/-- The package-level variables of lines 45-48. -/
structure Globals where
  earthquakeCache : List Earthquake
  lastUpdate : time.Time
deriving DecidableEq, Repr

/-- State of the two variables at program start: `nil` slice, zero time. -/
def Globals.initial : Globals := ⟨[], time.zero⟩

/-! ## Run-time panics and slice indexing -/

/-- The run-time panic `index out of range [index] with length length`. -/
inductive GoPanic where
  | indexOutOfRange (index length : Nat)
deriving DecidableEq, Repr

/-- The index expression `xs[i]` on a slice. -/
def sliceIndex (xs : List Float64) (i : Nat) : Except GoPanic Float64 :=
  match xs[i]? with
  | some x => .ok x
  | none => .error (.indexOutOfRange i xs.length)

/-! ## `fetchEarthquakes` (lines 90-133) -/

/-- What the three library calls of lines 93-110 hand back.

* `getError`: `http.Get` returned `err != nil` (transport failure).
* `readError status`: a response arrived, `io.ReadAll` returned `err != nil`.
* `body status decoded`: a response with status code `status` arrived and its
  body was read; `decoded` is `none` when `json.Unmarshal` returned an error and
  `some usgsData` when it filled `usgsData`.

`http.Get` reports no error for a response with a non-2xx status, so the status
code is part of the successful outcomes. -/
inductive FetchResult where
  | getError
  | readError (status : Nat)
  | body (status : Nat) (decoded : Option USGSResponse)
deriving DecidableEq, Repr

/-- The body of the loop of lines 113-128 for one `feature`, with the slice
`earthquakes` built so far; the result is that slice after the iteration. -/
def loopBody (earthquakes : List Earthquake) (feature : Feature) :
    Except GoPanic (List Earthquake) :=
  if feature.Properties.Mag.gtZero then do
    let longitude ← sliceIndex feature.Geometry.Coordinates 0
    let latitude ← sliceIndex feature.Geometry.Coordinates 1
    let depth ← sliceIndex feature.Geometry.Coordinates 2
    let eq : Earthquake :=
      { ID := feature.ID
        Magnitude := feature.Properties.Mag
        Place := feature.Properties.Place
        Time := time.Unix (Int.tdiv feature.Properties.Time 1000) 0
        Longitude := longitude
        Latitude := latitude
        Depth := depth
        URL := feature.Properties.URL
        Alert := feature.Properties.Alert }
    .ok (earthquakes ++ [eq])
  else
    .ok earthquakes

/-- The loop `for _, feature := range usgsData.Features` of lines 113-128. -/
def normalizeLoop : List Feature → List Earthquake → Except GoPanic (List Earthquake)
  | [], earthquakes => .ok earthquakes
  | feature :: rest, earthquakes => do
    let earthquakes' ← loopBody earthquakes feature
    normalizeLoop rest earthquakes'

/-- `fetchEarthquakes`: `r` is the outcome of the library calls, `now` the value
of `time.Now()` on line 131, `g` the globals on entry.  The result is the globals
on return, or the panic that ended the call. -/
def fetchEarthquakes (r : FetchResult) (now : time.Time) (g : Globals) :
    Except GoPanic Globals :=
  match r with
  | .getError => .ok g
  | .readError _ => .ok g
  | .body _ none => .ok g
  | .body _ (some usgsData) => do
    let earthquakes ← normalizeLoop usgsData.Features []
    .ok { earthquakeCache := earthquakes, lastUpdate := now }

/-- The refresh driver of `main` (lines 75-84): the initial call followed by one
call per ticker event, each with its own library outcome and clock reading. -/
def refreshRun : List (FetchResult × time.Time) → Globals → Except GoPanic Globals
  | [], g => .ok g
  | (r, now) :: rest, g => do
    let g' ← fetchEarthquakes r now g
    refreshRun rest g'

/-- The three outcomes on which `fetchEarthquakes` logs an error and returns
early: transport error, body-read error, undecodable payload. -/
def FetchResult.isFailure : FetchResult → Bool
  | .getError => true
  | .readError _ => true
  | .body _ none => true
  | .body _ (some _) => false

/-! ## `getEarthquakes` (lines 135-142) -/

/-- The map literal handed to the JSON encoder on lines 137-141. -/
structure PullView where
  earthquakes : List Earthquake
  count : Nat
  lastUpdate : time.Time
deriving DecidableEq, Repr

/-- The encoder accepts the map: every record and `lastUpdate` are accepted. -/
def PullView.jsonEncodes (loc : time.Location) (v : PullView) : Bool :=
  v.earthquakes.all (fun e => e.jsonEncodes loc) && v.lastUpdate.jsonEncodes loc

/-- `getEarthquakes`: the response body and the globals after the call.  The body
is `some view` when `Encode` writes the encoding of the map `view`, and `none`
when `Encode` fails: it then writes nothing, and line 137 discards its error, so
the response has an empty body. -/
def getEarthquakes (loc : time.Location) (g : Globals) : Option PullView × Globals :=
  let view : PullView :=
    { earthquakes := g.earthquakeCache
      count := g.earthquakeCache.length
      lastUpdate := g.lastUpdate }
  (if view.jsonEncodes loc then some view else none, g)

/-- A sequence of `n` calls of `getEarthquakes` with no refresh in between: the
response bodies, in order, and the globals at the end. -/
def getEarthquakesTimes (loc : time.Location) :
    Nat → Globals → List (Option PullView) × Globals
  | 0, g => ([], g)
  | n + 1, g =>
    let (v, g') := getEarthquakes loc g
    let (vs, g'') := getEarthquakesTimes loc n g'
    (v :: vs, g'')

/-! ## `streamEarthquakes` (lines 144-174) -/

/-- The map literal handed to `json.Marshal` on lines 165-169. -/
structure StreamPayload where
  earthquakes : List Earthquake
  count : Nat
  timestamp : time.Time
deriving DecidableEq, Repr

/-- The encoder accepts the map: every record and `timestamp` are accepted. -/
def StreamPayload.jsonEncodes (loc : time.Location) (p : StreamPayload) : Bool :=
  p.earthquakes.all (fun e => e.jsonEncodes loc) && p.timestamp.jsonEncodes loc

/-- The `case <-ticker.C` branch (lines 164-171) in one connection handler: `g` is
the globals it reads, `now` the value of its own `time.Now()` call.  The result
is the `data` written between `data: ` and the two newlines: `some payload` for
the encoding of the map `payload`, and `none` for the empty `data` left when
`json.Marshal` fails and line 165 discards its error. -/
def streamPayload (loc : time.Location) (g : Globals) (now : time.Time) :
    Option StreamPayload :=
  let payload : StreamPayload :=
    { earthquakes := g.earthquakeCache
      count := g.earthquakeCache.length
      timestamp := now }
  if payload.jsonEncodes loc then some payload else none

/-- What one `select` of lines 161-172 receives: cancellation of the request
context, or an event of the ticker this handler created on line 155 (with the
globals and the clock as they are when the branch runs). -/
inductive SelectEvent where
  | done
  | tick (g : Globals) (now : time.Time)
deriving DecidableEq, Repr

/-- The loop of lines 160-173 of one connection handler: the `data` of the events
it writes, in order. -/
def streamLoop (loc : time.Location) : List SelectEvent → List (Option StreamPayload)
  | [] => []
  | .done :: _ => []
  | .tick g now :: rest => streamPayload loc g now :: streamLoop loc rest

/-- `streamEarthquakes` for one connection: `flusherOk` is the outcome of the type
assertion on line 149. -/
def streamEarthquakes (loc : time.Location) (flusherOk : Bool) (events : List SelectEvent) :
    List (Option StreamPayload) :=
  if flusherOk then streamLoop loc events else []

/-! ## Interleaved execution of a refresh and a pull request -/

/-- The accesses to the two globals made by the tail of a successful
`fetchEarthquakes` (lines 130-131) and by `getEarthquakes` (lines 138-140), each
taken as one indivisible step. -/
inductive Access where
  | storeCache (earthquakes : List Earthquake)
  | storeLastUpdate (now : time.Time)
  | loadCache
  | loadLen
  | loadLastUpdate
deriving DecidableEq, Repr

/-- The operands of the map literal of `getEarthquakes` evaluated so far. -/
structure Loaded where
  earthquakes : Option (List Earthquake)
  count : Option Nat
  lastUpdate : Option time.Time
deriving DecidableEq, Repr

/-- No operand evaluated yet. -/
def Loaded.none : Loaded := ⟨Option.none, Option.none, Option.none⟩

/-- One access applied to the shared globals and the reader-local operands. -/
def access : Access → Globals × Loaded → Globals × Loaded
  | .storeCache earthquakes, (g, l) => ({ g with earthquakeCache := earthquakes }, l)
  | .storeLastUpdate now, (g, l) => ({ g with lastUpdate := now }, l)
  | .loadCache, (g, l) => (g, { l with earthquakes := some g.earthquakeCache })
  | .loadLen, (g, l) => (g, { l with count := some g.earthquakeCache.length })
  | .loadLastUpdate, (g, l) => (g, { l with lastUpdate := some g.lastUpdate })

/-- A schedule of accesses, executed in order. -/
def runAccesses : List Access → Globals × Loaded → Globals × Loaded
  | [], σ => σ
  | a :: rest, σ => runAccesses rest (access a σ)

/-- Program order of the writer: line 130, then line 131. -/
def writerAccesses (earthquakes : List Earthquake) (now : time.Time) : List Access :=
  [.storeCache earthquakes, .storeLastUpdate now]

/-- Program order of the reader: lines 138, 139, 140. -/
def readerAccesses : List Access :=
  [.loadCache, .loadLen, .loadLastUpdate]

/-- The list `zs` is a merge of `xs` and `ys` that keeps the order of each. -/
inductive Interleaving {α : Type} : List α → List α → List α → Prop where
  | nil : Interleaving [] [] []
  | left {x : α} {xs ys zs : List α} :
      Interleaving xs ys zs → Interleaving (x :: xs) ys (x :: zs)
  | right {y : α} {xs ys zs : List α} :
      Interleaving xs ys zs → Interleaving xs (y :: ys) (y :: zs)

/-! ## Specification-side predicates -/

/-- The record `e` is the normalization of the upstream event `f`: identifier,
magnitude, place, URL and alert copied, the time converted, and longitude,
latitude, depth taken from the first three coordinates. -/
def Normalizes (f : Feature) (e : Earthquake) : Prop :=
  e.ID = f.ID ∧ e.Magnitude = f.Properties.Mag ∧ e.Place = f.Properties.Place ∧
  e.Time = time.Unix (Int.tdiv f.Properties.Time 1000) 0 ∧
  f.Geometry.Coordinates[0]? = some e.Longitude ∧
  f.Geometry.Coordinates[1]? = some e.Latitude ∧
  f.Geometry.Coordinates[2]? = some e.Depth ∧
  e.URL = f.Properties.URL ∧ e.Alert = f.Properties.Alert

/-- Every event with magnitude `> 0` carries at least three coordinates. -/
def CoordinatesPresent (fs : List Feature) : Prop :=
  ∀ f ∈ fs, f.Properties.Mag.gtZero = true → 3 ≤ f.Geometry.Coordinates.length

/-- The globals `g` can be reached from program start by a sequence of calls of
`fetchEarthquakes` that return. -/
inductive Reachable : Globals → Prop where
  | start : Reachable Globals.initial
  | refresh {g g' : Globals} (r : FetchResult) (now : time.Time) :
      Reachable g → fetchEarthquakes r now g = .ok g' → Reachable g'

/-! ## Sample values -/

/-- The `float64` values `0`, `4.2`, `5.5`, `10`, `20`, `30`, `40`. -/
def f0 : Float64 := ⟨0⟩
def f4_2 : Float64 := ⟨0x4010CCCCCCCCCCCD⟩
def f5_5 : Float64 := ⟨0x4016000000000000⟩
def f10 : Float64 := ⟨0x4024000000000000⟩
def f20 : Float64 := ⟨0x4034000000000000⟩
def f30 : Float64 := ⟨0x403E000000000000⟩
def f40 : Float64 := ⟨0x4044000000000000⟩

/-- An upstream event with the given identifier, magnitude and coordinates,
that occurred 1700000000123 ms after the epoch. -/
def sampleFeature (id : String) (mag : Float64) (coords : List Float64) : Feature :=
  { ID := id
    Properties := { Mag := mag, Place := "10km N of Somewhere", Time := 1700000000123,
                    URL := "https://example.org/quake", Alert := "" }
    Geometry := { Coordinates := coords } }

/-- The record the program builds from `sampleFeature id mag (x :: y :: z :: _)`. -/
def sampleRecord (id : String) (mag x y z : Float64) : Earthquake :=
  { ID := id, Magnitude := mag, Place := "10km N of Somewhere", Time := ⟨1700000000, 0⟩,
    Latitude := y, Longitude := x, Depth := z,
    URL := "https://example.org/quake", Alert := "" }

/-- Two clock readings, one nanosecond apart. -/
def clock1 : time.Time := ⟨1700000100, 0⟩
def clock2 : time.Time := ⟨1700000100, 1⟩

/-- Globals after a successful refresh at `clock1` that found one event. -/
def sampleGlobals : Globals := ⟨[sampleRecord "a" f5_5 f10 f20 f30], clock1⟩

/-- Globals after a later successful refresh at `clock2` that found another event. -/
def laterGlobals : Globals := ⟨[sampleRecord "b" f4_2 f10 f20 f30], clock2⟩

/-- Three failed refreshes in a row: transport error, body-read error,
undecodable payload. -/
def failedRun : List (FetchResult × time.Time) :=
  [(.getError, clock2), (.readError 200, clock2), (.body 200 none, clock2)]

/-- An event of magnitude `0` without coordinates, then one of magnitude `4.2`. -/
def zeroThenPositive : List Feature :=
  [sampleFeature "z" f0 [], sampleFeature "b" f4_2 [f10, f20, f30]]

/-- One event of magnitude `5.5` at coordinates `[10, 20, 30]`. -/
def singleEvent : Feature := sampleFeature "a" f5_5 [f10, f20, f30]

/-- An event of magnitude `5.5` with four coordinates. -/
def fourCoordinates : Feature := sampleFeature "q" f5_5 [f10, f20, f30, f40]

/-- An event of magnitude `5.5` with two coordinates. -/
def twoCoordinates : Feature := sampleFeature "s" f5_5 [f10, f20]

/-- A four-coordinate event, a zero-magnitude event with two coordinates, and a
regular event. -/
def mixedEvents : List Feature :=
  [fourCoordinates, sampleFeature "z" f0 [f10, f20], singleEvent]

/-- An event of magnitude `5.5` at coordinates `[10, 20, 30]` whose time is
253402387200000 ms after the epoch: 10000-01-02T00:00:00Z. -/
def farFutureEvent : Feature :=
  { ID := "far"
    Properties := { Mag := f5_5, Place := "", Time := 253402387200000, URL := "", Alert := "" }
    Geometry := { Coordinates := [f10, f20, f30] } }

/-- The record the program builds from `farFutureEvent`. -/
def farFutureRecord : Earthquake :=
  { ID := "far", Magnitude := f5_5, Place := "", Time := ⟨253402387200, 0⟩,
    Latitude := f20, Longitude := f10, Depth := f30, URL := "", Alert := "" }

/-- Globals after a successful refresh at `clock1` that found `farFutureEvent`. -/
def farFutureGlobals : Globals := ⟨[farFutureRecord], clock1⟩

/-- An event of magnitude `5.5` that occurred one millisecond before the epoch. -/
def beforeEpoch : Feature :=
  { ID := "old"
    Properties := { Mag := f5_5, Place := "", Time := -1, URL := "", Alert := "" }
    Geometry := { Coordinates := [f10, f20, f30] } }

/-- A refresh stores `laterGlobals` over `sampleGlobals` while a pull request
reads: the store of line 130, the three loads of lines 138-140, the store of
line 131. -/
def tornSchedule : List Access :=
  [.storeCache laterGlobals.earthquakeCache, .loadCache, .loadLen, .loadLastUpdate,
   .storeLastUpdate laterGlobals.lastUpdate]

instance (fs : List Feature) : Decidable (CoordinatesPresent fs) := by
  unfold CoordinatesPresent; infer_instance

/-! ## Lemmas on the normalization loop -/

theorem loopBody_of_not_gtZero (acc : List Earthquake) (f : Feature)
    (h : f.Properties.Mag.gtZero = false) : loopBody acc f = .ok acc := by
  simp [loopBody, h]

theorem loopBody_of_gtZero (acc : List Earthquake) (f : Feature)
    (h : f.Properties.Mag.gtZero = true) (hc : 3 ≤ f.Geometry.Coordinates.length) :
    ∃ e, loopBody acc f = .ok (acc ++ [e]) ∧ Normalizes f e := by
  obtain ⟨id, props, ⟨coords⟩⟩ := f
  match coords, hc with
  | x :: y :: z :: rest, _ =>
    refine ⟨⟨id, props.Mag, props.Place, time.Unix (Int.tdiv props.Time 1000) 0, y, x, z,
      props.URL, props.Alert⟩, ?_, ?_⟩
    · simp only at h
      simp [loopBody, sliceIndex, h, bind, Except.bind]
    · simp [Normalizes]

theorem normalizeLoop_acc (fs : List Feature) (acc : List Earthquake)
    (h : CoordinatesPresent fs) :
    ∃ recs, normalizeLoop fs acc = .ok (acc ++ recs) ∧
      List.Forall₂ Normalizes (fs.filter (fun f => f.Properties.Mag.gtZero)) recs := by
  induction fs generalizing acc with
  | nil => exact ⟨[], by simp [normalizeLoop], by simp⟩
  | cons f rest ih =>
    have hrest : CoordinatesPresent rest := fun g hg => h g (List.mem_cons_of_mem _ hg)
    cases hm : f.Properties.Mag.gtZero with
    | false =>
      obtain ⟨recs, hrun, hrel⟩ := ih acc hrest
      refine ⟨recs, ?_, ?_⟩
      · simp [normalizeLoop, loopBody_of_not_gtZero acc f hm, hrun, bind, Except.bind]
      · simpa [List.filter_cons, hm] using hrel
    | true =>
      obtain ⟨e, he, hn⟩ := loopBody_of_gtZero acc f hm (h f (List.mem_cons_self _ _) hm)
      obtain ⟨recs, hrun, hrel⟩ := ih (acc ++ [e]) hrest
      refine ⟨e :: recs, ?_, ?_⟩
      · simp [normalizeLoop, he, hrun, bind, Except.bind]
      · simpa [List.filter_cons, hm] using List.Forall₂.cons hn hrel

theorem normalizeLoop_skip (pre post : List Feature) (f : Feature) (acc : List Earthquake)
    (h : f.Properties.Mag.gtZero = false) :
    normalizeLoop (pre ++ f :: post) acc = normalizeLoop (pre ++ post) acc := by
  induction pre generalizing acc with
  | nil => simp [normalizeLoop, loopBody_of_not_gtZero acc f h, bind, Except.bind]
  | cons p pre ih =>
    simp only [List.cons_append, normalizeLoop]
    cases loopBody acc p with
    | error e => rfl
    | ok acc' => simpa [bind, Except.bind] using ih acc'

theorem normalizeLoop_gtZero (fs : List Feature) (acc recs : List Earthquake)
    (hacc : ∀ e ∈ acc, e.Magnitude.gtZero = true) (h : normalizeLoop fs acc = .ok recs) :
    ∀ e ∈ recs, e.Magnitude.gtZero = true := by
  induction fs generalizing acc with
  | nil =>
    simp only [normalizeLoop, Except.ok.injEq] at h
    subst h; exact hacc
  | cons f rest ih =>
    simp only [normalizeLoop, bind, Except.bind] at h
    cases hb : loopBody acc f with
    | error p => simp [hb] at h
    | ok acc' =>
      simp only [hb] at h
      refine ih acc' ?_ h
      cases hm : f.Properties.Mag.gtZero with
      | false =>
        rw [loopBody_of_not_gtZero acc f hm] at hb
        cases hb; exact hacc
      | true =>
        simp only [loopBody, hm, if_true, bind, Except.bind] at hb
        cases h0 : sliceIndex f.Geometry.Coordinates 0 with
        | error p => simp [h0] at hb
        | ok x =>
          cases h1 : sliceIndex f.Geometry.Coordinates 1 with
          | error p => simp [h0, h1] at hb
          | ok y =>
            cases h2 : sliceIndex f.Geometry.Coordinates 2 with
            | error p => simp [h0, h1, h2] at hb
            | ok z =>
              simp only [h0, h1, h2] at hb
              cases hb
              intro e he
              rcases List.mem_append.mp he with he | he
              · exact hacc e he
              · simp only [List.mem_singleton] at he
                subst he; exact hm

theorem gtZero_not_leZero (x : Float64) (h : x.gtZero = true) : x.leZero = false := by
  simp only [Float64.gtZero, Float64.leZero, Bool.and_eq_true, Bool.not_eq_true',
    beq_iff_eq] at *
  obtain ⟨⟨h1, h2⟩, h3⟩ := h
  simp [h1, h2, h3]

/-! ## Evaluation on the sample values -/

theorem normalize_zeroThenPositive :
    normalizeLoop zeroThenPositive [] = .ok [sampleRecord "b" f4_2 f10 f20 f30] := by
  rfl

theorem fetch_singleEvent :
    fetchEarthquakes (.body 200 (some ⟨[singleEvent]⟩)) clock1 Globals.initial
      = .ok sampleGlobals := by
  rfl

theorem pull_after_singleEvent :
    (getEarthquakes time.UTC sampleGlobals).1
      = some ⟨[sampleRecord "a" f5_5 f10 f20 f30], 1, clock1⟩ := by
  decide

theorem fetch_farFutureEvent :
    fetchEarthquakes (.body 200 (some ⟨[farFutureEvent]⟩)) clock1 Globals.initial
      = .ok farFutureGlobals := by
  rfl

theorem farFuture_time_not_encoded (loc : time.Location) :
    farFutureRecord.Time.jsonEncodes loc = false := by
  have hb := loc.bounded 253402387200
  simp only [time.Time.jsonEncodes, farFutureRecord, Bool.and_eq_false_imp,
    decide_eq_true_eq, decide_eq_false_iff_not]
  intro _
  omega

theorem pull_farFuture_any_location (loc : time.Location) :
    (getEarthquakes loc farFutureGlobals).1 = none := by
  simp [getEarthquakes, PullView.jsonEncodes, farFutureGlobals, Earthquake.jsonEncodes,
    farFuture_time_not_encoded loc]

theorem fetch_twoCoordinates_panics :
    fetchEarthquakes (.body 200 (some ⟨[twoCoordinates]⟩)) clock1 sampleGlobals
      = .error (.indexOutOfRange 2 2) := by
  rfl

/-! ## Failed refreshes -/

theorem refreshRun_failures (rs : List (FetchResult × time.Time)) (g : Globals)
    (h : ∀ p ∈ rs, p.1.isFailure = true) : refreshRun rs g = .ok g := by
  induction rs with
  | nil => rfl
  | cons p rest ih =>
    obtain ⟨r, now⟩ := p
    have hr : r.isFailure = true := h (r, now) (List.mem_cons_self _ _)
    have hrest := ih (fun q hq => h q (List.mem_cons_of_mem _ hq))
    cases r with
    | getError => simpa [refreshRun, fetchEarthquakes, bind, Except.bind] using hrest
    | readError status => simpa [refreshRun, fetchEarthquakes, bind, Except.bind] using hrest
    | body status decoded =>
      cases decoded with
      | none => simpa [refreshRun, fetchEarthquakes, bind, Except.bind] using hrest
      | some d => simp [FetchResult.isFailure] at hr

/-- C1: a refresh whose fetch fails by transport error, body-read error or
undecodable payload returns with the record sequence and `lastUpdate` exactly as
they were; hence any run of such failures leaves the globals unchanged, and a run
of failures that follows a refresh which published `g` still ends in `g`. -/
theorem fetch_failure_keeps_snapshot (g : Globals) (rs : List (FetchResult × time.Time))
    (h : ∀ p ∈ rs, p.1.isFailure = true) :
    (∀ (r : FetchResult) (now : time.Time), r.isFailure = true →
        fetchEarthquakes r now g = .ok g) ∧
    refreshRun rs g = .ok g ∧
    (∀ (r0 : FetchResult) (now0 : time.Time) (g0 : Globals),
        fetchEarthquakes r0 now0 g0 = .ok g → refreshRun ((r0, now0) :: rs) g0 = .ok g) := by
  refine ⟨?_, refreshRun_failures rs g h, ?_⟩
  · intro r now hr
    have := refreshRun_failures [(r, now)] g (by simpa using hr)
    cases hf : fetchEarthquakes r now g with
    | error e => simp [refreshRun, hf, bind, Except.bind] at this
    | ok g' => simpa [refreshRun, hf, bind, Except.bind] using this
  · intro r0 now0 g0 h0
    simp [refreshRun, h0, bind, Except.bind, refreshRun_failures rs g h]

theorem fetch_failure_keeps_snapshot_witness :
    (∀ p ∈ failedRun, p.1.isFailure = true) ∧
    refreshRun failedRun sampleGlobals = .ok sampleGlobals ∧
    refreshRun ((.body 200 (some ⟨[singleEvent]⟩), clock1) :: failedRun) Globals.initial
      = .ok sampleGlobals :=
  have h : ∀ p ∈ failedRun, p.1.isFailure = true := by decide
  ⟨h, (fetch_failure_keeps_snapshot sampleGlobals failedRun h).2.1,
    (fetch_failure_keeps_snapshot sampleGlobals failedRun h).2.2 _ _ _ fetch_singleEvent⟩

/-! ## Normalization -/

/-- C2: when every event with magnitude `> 0` carries at least three coordinates,
the loop returns one record per event with magnitude `> 0`, in upstream order
(the records correspond position by position to the sub-list of those events);
no event with magnitude `<= 0` is in that sub-list, and every record has a
magnitude that is `> 0` and not `<= 0`. -/
theorem normalize_keeps_exactly_positive (fs : List Feature) (h : CoordinatesPresent fs) :
    ∃ recs, normalizeLoop fs [] = .ok recs ∧
      List.Forall₂ Normalizes (fs.filter (fun f => f.Properties.Mag.gtZero)) recs ∧
      recs.length = (fs.filter (fun f => f.Properties.Mag.gtZero)).length ∧
      (∀ f ∈ fs, f.Properties.Mag.leZero = true →
        f ∉ fs.filter (fun f => f.Properties.Mag.gtZero)) ∧
      (∀ e ∈ recs, e.Magnitude.gtZero = true ∧ e.Magnitude.leZero = false) := by
  obtain ⟨recs, hrun, hrel⟩ := normalizeLoop_acc fs [] h
  simp only [List.nil_append] at hrun
  refine ⟨recs, hrun, hrel, hrel.length_eq.symm, ?_, ?_⟩
  · intro f _ hle hmem
    have hgt := (List.mem_filter.mp hmem).2
    have := gtZero_not_leZero _ hgt
    simp [hle] at this
  · intro e he
    have hgt := normalizeLoop_gtZero fs [] recs (by simp) hrun e he
    exact ⟨hgt, gtZero_not_leZero _ hgt⟩

theorem normalize_keeps_exactly_positive_witness :
    CoordinatesPresent zeroThenPositive ∧
    ∃ recs, normalizeLoop zeroThenPositive [] = .ok recs ∧
      List.Forall₂ Normalizes
        (zeroThenPositive.filter (fun f => f.Properties.Mag.gtZero)) recs ∧
      recs.length = (zeroThenPositive.filter (fun f => f.Properties.Mag.gtZero)).length ∧
      (∀ f ∈ zeroThenPositive, f.Properties.Mag.leZero = true →
        f ∉ zeroThenPositive.filter (fun f => f.Properties.Mag.gtZero)) ∧
      (∀ e ∈ recs, e.Magnitude.gtZero = true ∧ e.Magnitude.leZero = false) :=
  ⟨by decide, normalize_keeps_exactly_positive zeroThenPositive (by decide)⟩

/-- C3 (as the code has it): for an event with magnitude `> 0` and coordinate list
`[x, y, z]` the loop body appends exactly one record, with longitude `x`,
latitude `y`, depth `z` and with id, magnitude, place, url and alert copied from
the event; a refresh that decodes just this event publishes that record, and
when the JSON encoder accepts the record and the refresh time the pull view
reports count 1 and that record. -/
theorem record_copies_event_to_pull (loc : time.Location) (f : Feature) (x y z : Float64)
    (acc : List Earthquake) (status : Nat) (now : time.Time) (g : Globals)
    (hm : f.Properties.Mag.gtZero = true) (hc : f.Geometry.Coordinates = [x, y, z]) :
    ∃ e, loopBody acc f = .ok (acc ++ [e]) ∧
      e.Longitude = x ∧ e.Latitude = y ∧ e.Depth = z ∧
      e.ID = f.ID ∧ e.Magnitude = f.Properties.Mag ∧ e.Place = f.Properties.Place ∧
      e.URL = f.Properties.URL ∧ e.Alert = f.Properties.Alert ∧
      ∃ g', fetchEarthquakes (.body status (some ⟨[f]⟩)) now g = .ok g' ∧
        g'.earthquakeCache = [e] ∧ g'.lastUpdate = now ∧
        (e.jsonEncodes loc = true → now.jsonEncodes loc = true →
          (getEarthquakes loc g').1 = some ⟨[e], 1, now⟩) := by
  obtain ⟨id, props, ⟨coords⟩⟩ := f
  simp only at hm hc
  subst hc
  refine ⟨⟨id, props.Mag, props.Place, time.Unix (Int.tdiv props.Time 1000) 0, y, x, z,
    props.URL, props.Alert⟩, ?_, rfl, rfl, rfl, rfl, rfl, rfl, rfl, rfl, ?_⟩
  · simp [loopBody, sliceIndex, hm, bind, Except.bind]
  · refine ⟨⟨[⟨id, props.Mag, props.Place, time.Unix (Int.tdiv props.Time 1000) 0, y, x, z,
      props.URL, props.Alert⟩], now⟩, ?_, rfl, rfl, ?_⟩
    · simp [fetchEarthquakes, normalizeLoop, loopBody, sliceIndex, hm, bind, Except.bind]
    · intro he hnow
      simp [getEarthquakes, PullView.jsonEncodes, he, hnow]

theorem record_copies_event_to_pull_witness :
    singleEvent.Properties.Mag = f5_5 ∧ singleEvent.Properties.Mag.gtZero = true ∧
    singleEvent.Geometry.Coordinates = [f10, f20, f30] ∧
    ∃ e, loopBody [] singleEvent = .ok [e] ∧
      e.Longitude = f10 ∧ e.Latitude = f20 ∧ e.Depth = f30 ∧ e.Magnitude = f5_5 ∧
      ∃ g', fetchEarthquakes (.body 200 (some ⟨[singleEvent]⟩)) clock1 Globals.initial
          = .ok g' ∧
        (getEarthquakes time.UTC g').1 = some ⟨[e], 1, clock1⟩ := by
  obtain ⟨e, hb, hx, hy, hz, _, hmag, _, _, _, g', hf, _, _, hp⟩ :=
    record_copies_event_to_pull time.UTC singleEvent f10 f20 f30 [] 200 clock1
      Globals.initial (by decide) rfl
  have hrec : loopBody [] singleEvent = .ok [sampleRecord "a" f5_5 f10 f20 f30] := rfl
  have he : e = sampleRecord "a" f5_5 f10 f20 f30 := by
    rw [hrec] at hb
    simpa using hb.symm
  refine ⟨rfl, by decide, rfl, e, by simpa using hb, hx, hy, hz, hmag, g', hf, ?_⟩
  exact hp (by rw [he]; decide) (by decide)

/-- C3 fails as stated: an event of magnitude 5.5 at coordinates `[10, 20, 30]`
dated in year 10000 is fetched and published, and the pull request then gets an
empty body (the encoder refuses the time of the record) where the claim has
count 1 and the record. -/
theorem far_future_event_pull_empty :
    farFutureEvent.Properties.Mag = f5_5 ∧
    farFutureEvent.Geometry.Coordinates = [f10, f20, f30] ∧
    fetchEarthquakes (.body 200 (some ⟨[farFutureEvent]⟩)) clock1 Globals.initial
      = .ok farFutureGlobals ∧
    (getEarthquakes time.UTC farFutureGlobals).1 = none := by
  exact ⟨rfl, rfl, rfl, by decide⟩

theorem forall₂_exists_right {α β : Type} {R : α → β → Prop} {l₁ : List α} {l₂ : List β}
    (h : List.Forall₂ R l₁ l₂) : ∀ a ∈ l₁, ∃ b ∈ l₂, R a b := by
  induction h with
  | nil => intro a ha; cases ha
  | cons hab _ ih =>
    intro a ha
    rcases List.mem_cons.mp ha with rfl | ha
    · exact ⟨_, List.mem_cons_self _ _, hab⟩
    · obtain ⟨b, hb, hr⟩ := ih a ha
      exact ⟨b, List.mem_cons_of_mem _ hb, hr⟩

/-- C4 (as the code has it): when every event with magnitude `> 0` carries at
least three coordinates, the refresh returns and publishes, in upstream order, one
record for each event with magnitude `> 0`; this includes events with more than
three coordinates, whose record is built from the first three.  An event whose
magnitude is not `> 0` is the only one dropped, whatever its coordinates: the
refresh of the list without it publishes the same globals. -/
theorem refresh_with_irregular_coordinates (status : Nat) (now : time.Time) (g : Globals)
    (fs : List Feature) (h : CoordinatesPresent fs) :
    ∃ recs, fetchEarthquakes (.body status (some ⟨fs⟩)) now g = .ok ⟨recs, now⟩ ∧
      List.Forall₂ Normalizes (fs.filter (fun f => f.Properties.Mag.gtZero)) recs ∧
      (∀ f ∈ fs, f.Properties.Mag.gtZero = true → ∃ e ∈ recs, Normalizes f e) ∧
      (∀ (pre : List Feature) (f : Feature) (post : List Feature),
        fs = pre ++ f :: post → f.Properties.Mag.gtZero = false →
        fetchEarthquakes (.body status (some ⟨pre ++ post⟩)) now g = .ok ⟨recs, now⟩) := by
  obtain ⟨recs, hrun, hrel⟩ := normalizeLoop_acc fs [] h
  simp only [List.nil_append] at hrun
  refine ⟨recs, ?_, hrel, ?_, ?_⟩
  · simp [fetchEarthquakes, hrun, bind, Except.bind]
  · intro f hf hm
    exact forall₂_exists_right hrel f (List.mem_filter.mpr ⟨hf, hm⟩)
  · intro pre f post hfs hm
    subst hfs
    rw [normalizeLoop_skip pre post f [] hm] at hrun
    simp [fetchEarthquakes, hrun, bind, Except.bind]

theorem refresh_with_irregular_coordinates_witness :
    CoordinatesPresent mixedEvents ∧
    ∃ recs, fetchEarthquakes (.body 200 (some ⟨mixedEvents⟩)) clock1 Globals.initial
        = .ok ⟨recs, clock1⟩ ∧
      List.Forall₂ Normalizes (mixedEvents.filter (fun f => f.Properties.Mag.gtZero)) recs ∧
      (∀ f ∈ mixedEvents, f.Properties.Mag.gtZero = true → ∃ e ∈ recs, Normalizes f e) ∧
      (∀ (pre : List Feature) (f : Feature) (post : List Feature),
        mixedEvents = pre ++ f :: post → f.Properties.Mag.gtZero = false →
        fetchEarthquakes (.body 200 (some ⟨pre ++ post⟩)) clock1 Globals.initial
          = .ok ⟨recs, clock1⟩) :=
  ⟨by decide,
    refresh_with_irregular_coordinates 200 clock1 Globals.initial mixedEvents (by decide)⟩

/-- C4 fails as stated: an event of magnitude 5.5 with four coordinates is not
dropped; the refresh publishes its record, built from the first three
coordinates, and so differs from the refresh of the list without that event. -/
theorem four_coordinates_not_dropped :
    fourCoordinates.Geometry.Coordinates.length ≠ 3 ∧
    fetchEarthquakes (.body 200 (some ⟨[fourCoordinates]⟩)) clock1 Globals.initial
      = .ok ⟨[sampleRecord "q" f5_5 f10 f20 f30], clock1⟩ ∧
    fetchEarthquakes (.body 200 (some ⟨[fourCoordinates]⟩)) clock1 Globals.initial
      ≠ fetchEarthquakes (.body 200 (some ⟨[]⟩)) clock1 Globals.initial := by
  refine ⟨by decide, rfl, ?_⟩
  intro heq
  have h1 : fetchEarthquakes (.body 200 (some ⟨[fourCoordinates]⟩)) clock1 Globals.initial
      = .ok ⟨[sampleRecord "q" f5_5 f10 f20 f30], clock1⟩ := rfl
  have h2 : fetchEarthquakes (.body 200 (some ⟨[]⟩)) clock1 Globals.initial
      = .ok ⟨[], clock1⟩ := rfl
  rw [h1, h2] at heq
  simp at heq

/-! ## Non-2xx responses -/

theorem fetch_ignores_status (status status' : Nat) (decoded : Option USGSResponse)
    (now : time.Time) (g : Globals) :
    fetchEarthquakes (.body status decoded) now g
      = fetchEarthquakes (.body status' decoded) now g := by
  cases decoded <;> rfl

/-- C5 fails on the code: a response with status 503 whose body decodes to a feed
object without features replaces the stored record by the empty sequence and sets
`lastUpdate` to the time of the refresh. -/
theorem non2xx_overwrites_store :
    fetchEarthquakes (.body 503 (some ⟨[]⟩)) clock2 sampleGlobals = .ok ⟨[], clock2⟩ ∧
    (⟨[], clock2⟩ : Globals) ≠ sampleGlobals := by
  exact ⟨rfl, by decide⟩

/-! ## The pull view -/

theorem getEarthquakesTimes_eq (loc : time.Location) (n : Nat) (g : Globals) :
    getEarthquakesTimes loc n g = (List.replicate n (getEarthquakes loc g).1, g) := by
  induction n with
  | zero => rfl
  | succ n ih => simp [getEarthquakesTimes, ih, getEarthquakes, List.replicate_succ]

/-- C6 (as the code has it): when the JSON encoder accepts every stored record and
the stored `lastUpdate`, the pull view holds the whole stored record sequence as
`earthquakes`, its length as `count` and the stored `lastUpdate`; otherwise the
body is empty.  In every state the body is either that full view or empty, the
call leaves the globals unchanged, and any number of calls in a row return the
same body each time. -/
theorem getEarthquakes_full_view (loc : time.Location) (g : Globals) (n : Nat) :
    ((∀ e ∈ g.earthquakeCache, e.jsonEncodes loc = true) →
      g.lastUpdate.jsonEncodes loc = true →
      (getEarthquakes loc g).1
        = some ⟨g.earthquakeCache, g.earthquakeCache.length, g.lastUpdate⟩) ∧
    (¬ ((∀ e ∈ g.earthquakeCache, e.jsonEncodes loc = true) ∧
        g.lastUpdate.jsonEncodes loc = true) →
      (getEarthquakes loc g).1 = none) ∧
    ((getEarthquakes loc g).1 = none ∨
      (getEarthquakes loc g).1
        = some ⟨g.earthquakeCache, g.earthquakeCache.length, g.lastUpdate⟩) ∧
    (getEarthquakes loc g).2 = g ∧
    getEarthquakesTimes loc n g = (List.replicate n (getEarthquakes loc g).1, g) := by
  refine ⟨?_, ?_, ?_, rfl, getEarthquakesTimes_eq loc n g⟩
  · intro hrecs hlast
    have hall : g.earthquakeCache.all (fun e => e.jsonEncodes loc) = true :=
      List.all_eq_true.mpr hrecs
    simp [getEarthquakes, PullView.jsonEncodes, hall, hlast]
  · intro hno
    simp only [getEarthquakes, PullView.jsonEncodes]
    split
    · rename_i henc
      rw [Bool.and_eq_true] at henc
      exact absurd ⟨List.all_eq_true.mp henc.1, henc.2⟩ hno
    · rfl
  · simp only [getEarthquakes]
    split
    · exact Or.inr rfl
    · exact Or.inl rfl

theorem getEarthquakes_full_view_witness :
    (∀ e ∈ sampleGlobals.earthquakeCache, e.jsonEncodes time.UTC = true) ∧
    sampleGlobals.lastUpdate.jsonEncodes time.UTC = true ∧
    (getEarthquakes time.UTC sampleGlobals).1
      = some ⟨[sampleRecord "a" f5_5 f10 f20 f30], 1, clock1⟩ ∧
    getEarthquakesTimes time.UTC 3 sampleGlobals
      = (List.replicate 3 (getEarthquakes time.UTC sampleGlobals).1, sampleGlobals) :=
  ⟨by decide, by decide,
    (getEarthquakes_full_view time.UTC sampleGlobals 3).1 (by decide) (by decide),
    (getEarthquakes_full_view time.UTC sampleGlobals 3).2.2.2.2⟩

/-- C6 fails as stated: the globals published by the refresh that found the event
dated in year 10000 are reachable and hold one record, and the pull request gets
an empty body instead of the view with that record. -/
theorem pull_view_missing_for_far_future :
    Reachable farFutureGlobals ∧
    farFutureGlobals.earthquakeCache.length = 1 ∧
    getEarthquakes time.UTC farFutureGlobals = (none, farFutureGlobals) := by
  refine ⟨?_, rfl, by decide⟩
  exact Reachable.refresh (.body 200 (some ⟨[farFutureEvent]⟩)) clock1 Reachable.start rfl

/-! ## The stream payload -/

/-- C7 (as the code has it): each connection handler builds its own payload on its
own ticker.  Two handlers whose ticks read the same globals and the same
`time.Now()` write identical payloads; when their clock values differ, the
payloads, if both are encoded, still carry the same `earthquakes` and the same
`count` (those of the globals), and each carries the clock value of its own
handler as `timestamp`. -/
theorem stream_payload_per_connection (loc : time.Location) (g : Globals)
    (now1 now2 : time.Time) :
    (now1 = now2 →
      streamEarthquakes loc true [.tick g now1] = streamEarthquakes loc true [.tick g now2]) ∧
    (∀ p1 p2 : StreamPayload,
      streamPayload loc g now1 = some p1 → streamPayload loc g now2 = some p2 →
      p1.earthquakes = g.earthquakeCache ∧ p2.earthquakes = g.earthquakeCache ∧
      p1.count = g.earthquakeCache.length ∧ p2.count = g.earthquakeCache.length ∧
      p1.timestamp = now1 ∧ p2.timestamp = now2) := by
  refine ⟨fun h => by rw [h], ?_⟩
  intro p1 p2 h1 h2
  simp only [streamPayload] at h1 h2
  split at h1
  · split at h2
    · cases h1; cases h2
      exact ⟨rfl, rfl, rfl, rfl, rfl, rfl⟩
    · cases h2
  · cases h1

theorem stream_payload_per_connection_witness :
    streamPayload time.UTC sampleGlobals clock1
      = some ⟨sampleGlobals.earthquakeCache, 1, clock1⟩ ∧
    streamPayload time.UTC sampleGlobals clock2
      = some ⟨sampleGlobals.earthquakeCache, 1, clock2⟩ ∧
    streamEarthquakes time.UTC true [.tick sampleGlobals clock1]
      = streamEarthquakes time.UTC true [.tick sampleGlobals clock1] ∧
    ((⟨sampleGlobals.earthquakeCache, 1, clock1⟩ : StreamPayload).earthquakes
        = sampleGlobals.earthquakeCache ∧
      (⟨sampleGlobals.earthquakeCache, 1, clock2⟩ : StreamPayload).earthquakes
        = sampleGlobals.earthquakeCache ∧
      (⟨sampleGlobals.earthquakeCache, 1, clock1⟩ : StreamPayload).count
        = sampleGlobals.earthquakeCache.length ∧
      (⟨sampleGlobals.earthquakeCache, 1, clock2⟩ : StreamPayload).count
        = sampleGlobals.earthquakeCache.length ∧
      (⟨sampleGlobals.earthquakeCache, 1, clock1⟩ : StreamPayload).timestamp = clock1 ∧
      (⟨sampleGlobals.earthquakeCache, 1, clock2⟩ : StreamPayload).timestamp = clock2) :=
  ⟨by decide, by decide,
    (stream_payload_per_connection time.UTC sampleGlobals clock1 clock1).1 rfl,
    (stream_payload_per_connection time.UTC sampleGlobals clock1 clock2).2 _ _
      (by decide) (by decide)⟩

/-- C7 fails as stated: two handlers that tick on the same globals one nanosecond
apart both write an encoded payload, and the two payloads differ. -/
theorem stream_payloads_differ :
    streamEarthquakes time.UTC true [.tick sampleGlobals clock1]
      = [some ⟨sampleGlobals.earthquakeCache, 1, clock1⟩] ∧
    streamEarthquakes time.UTC true [.tick sampleGlobals clock2]
      = [some ⟨sampleGlobals.earthquakeCache, 1, clock2⟩] ∧
    streamEarthquakes time.UTC true [.tick sampleGlobals clock1]
      ≠ streamEarthquakes time.UTC true [.tick sampleGlobals clock2] := by
  exact ⟨by decide, by decide, by decide⟩

/-! ## A refresh racing a pull request -/

theorem reader_before_writer :
    (runAccesses (readerAccesses ++
        writerAccesses laterGlobals.earthquakeCache laterGlobals.lastUpdate)
      (sampleGlobals, Loaded.none)).2
      = ⟨some sampleGlobals.earthquakeCache, some 1, some sampleGlobals.lastUpdate⟩ := by
  decide

theorem reader_after_writer :
    (runAccesses (writerAccesses laterGlobals.earthquakeCache laterGlobals.lastUpdate ++
        readerAccesses)
      (sampleGlobals, Loaded.none)).2
      = ⟨some laterGlobals.earthquakeCache, some 1, some laterGlobals.lastUpdate⟩ := by
  decide

/-- C8 fails on the code: with the globals holding the snapshot of one refresh
and a later refresh storing its own, the schedule that runs the three loads of
`getEarthquakes` between the stores of lines 130 and 131 keeps the program order
of both sides, and the request reads the record sequence of the later refresh
together with the `lastUpdate` of the earlier one. -/
theorem torn_read_between_stores :
    Interleaving (writerAccesses laterGlobals.earthquakeCache laterGlobals.lastUpdate)
      readerAccesses tornSchedule ∧
    runAccesses tornSchedule (sampleGlobals, Loaded.none)
      = (laterGlobals,
          ⟨some laterGlobals.earthquakeCache, some 1, some sampleGlobals.lastUpdate⟩) ∧
    laterGlobals.earthquakeCache ≠ sampleGlobals.earthquakeCache ∧
    sampleGlobals.lastUpdate ≠ laterGlobals.lastUpdate := by
  refine ⟨?_, by decide, by decide, by decide⟩
  exact .left (.right (.right (.right (.left .nil))))

/-! ## Stored magnitudes -/

/-- C9: in every state of the globals reachable from program start through calls
of `fetchEarthquakes`, whatever their outcomes, each stored record has a
magnitude `> 0`. -/
theorem reachable_magnitudes_positive (g : Globals) (h : Reachable g) :
    ∀ e ∈ g.earthquakeCache, e.Magnitude.gtZero = true := by
  induction h with
  | start => intro e he; cases he
  | refresh r now _ hstep ih =>
    cases r with
    | getError => simp only [fetchEarthquakes, Except.ok.injEq] at hstep; subst hstep; exact ih
    | readError status =>
      simp only [fetchEarthquakes, Except.ok.injEq] at hstep; subst hstep; exact ih
    | body status decoded =>
      cases decoded with
      | none => simp only [fetchEarthquakes, Except.ok.injEq] at hstep; subst hstep; exact ih
      | some d =>
        simp only [fetchEarthquakes, bind, Except.bind] at hstep
        cases hn : normalizeLoop d.Features [] with
        | error p => simp [hn] at hstep
        | ok recs =>
          simp only [hn, Except.ok.injEq] at hstep
          subst hstep
          exact normalizeLoop_gtZero d.Features [] recs (by simp) hn

theorem reachable_magnitudes_positive_witness :
    Reachable sampleGlobals ∧
    ∀ e ∈ sampleGlobals.earthquakeCache, e.Magnitude.gtZero = true :=
  have h : Reachable sampleGlobals :=
    Reachable.refresh (.body 200 (some ⟨[singleEvent]⟩)) clock1 Reachable.start rfl
  ⟨h, reachable_magnitudes_positive sampleGlobals h⟩

/-! ## The time of a record -/

theorem Unix_whole_seconds (sec : Int) : time.Unix sec 0 = ⟨sec, 0⟩ := by
  simp [time.Unix]

theorem tdiv_thousand_nonneg (ms : Int) (h : 0 ≤ ms) :
    Int.tdiv ms 1000 * 1000 ≤ ms ∧ ms - Int.tdiv ms 1000 * 1000 < 1000 := by
  rw [Int.tdiv_eq_ediv h (by decide)]
  omega

theorem tdiv_thousand_neg (ms : Int) (h : ms < 0) :
    ms ≤ Int.tdiv ms 1000 * 1000 ∧ Int.tdiv ms 1000 * 1000 - ms < 1000 := by
  have h1 : Int.tdiv ms 1000 = -(Int.tdiv (-ms) 1000) := by
    rw [Int.neg_tdiv, Int.neg_neg]
  rw [h1, Int.tdiv_eq_ediv (by omega) (by decide)]
  omega

/-- C10 (as the code has it): the time of a record has no sub-second part and is
the upstream instant truncated toward the epoch.  For a millisecond value `>= 0`
it is not later than the upstream instant and less than one second before it; for
a negative millisecond value it is not earlier than the upstream instant and less
than one second after it. -/
theorem record_time_truncates_toward_epoch (acc : List Earthquake) (f : Feature)
    (hm : f.Properties.Mag.gtZero = true) (hc : 3 ≤ f.Geometry.Coordinates.length) :
    ∃ e, loopBody acc f = .ok (acc ++ [e]) ∧
      e.Time = time.Unix (Int.tdiv f.Properties.Time 1000) 0 ∧
      e.Time.nsec = 0 ∧
      (0 ≤ f.Properties.Time →
        e.Time.nanos ≤ f.Properties.Time * 1000000 ∧
        f.Properties.Time * 1000000 - e.Time.nanos < 1000000000) ∧
      (f.Properties.Time < 0 →
        f.Properties.Time * 1000000 ≤ e.Time.nanos ∧
        e.Time.nanos - f.Properties.Time * 1000000 < 1000000000) := by
  obtain ⟨e, he, hn⟩ := loopBody_of_gtZero acc f hm hc
  obtain ⟨_, _, _, ht, _⟩ := hn
  refine ⟨e, he, ht, ?_, ?_, ?_⟩
  · rw [ht, Unix_whole_seconds]
  · intro h0
    have := tdiv_thousand_nonneg _ h0
    rw [ht, Unix_whole_seconds]
    simp only [time.Time.nanos]
    omega
  · intro h0
    have := tdiv_thousand_neg _ h0
    rw [ht, Unix_whole_seconds]
    simp only [time.Time.nanos]
    omega

theorem record_time_truncates_toward_epoch_witness :
    singleEvent.Properties.Mag.gtZero = true ∧
    3 ≤ singleEvent.Geometry.Coordinates.length ∧
    ∃ e, loopBody [] singleEvent = .ok ([] ++ [e]) ∧
      e.Time = time.Unix (Int.tdiv singleEvent.Properties.Time 1000) 0 ∧
      e.Time.nsec = 0 ∧
      (0 ≤ singleEvent.Properties.Time →
        e.Time.nanos ≤ singleEvent.Properties.Time * 1000000 ∧
        singleEvent.Properties.Time * 1000000 - e.Time.nanos < 1000000000) ∧
      (singleEvent.Properties.Time < 0 →
        singleEvent.Properties.Time * 1000000 ≤ e.Time.nanos ∧
        e.Time.nanos - singleEvent.Properties.Time * 1000000 < 1000000000) :=
  ⟨by decide, by decide,
    record_time_truncates_toward_epoch [] singleEvent (by decide) (by decide)⟩

/-- C10 fails as stated: for an event one millisecond before the epoch the record
carries the epoch itself, which is later than the upstream instant. -/
theorem record_time_later_than_instant :
    loopBody [] beforeEpoch
      = .ok [⟨"old", f5_5, "", ⟨0, 0⟩, f20, f10, f30, "", ""⟩] ∧
    ¬ ((⟨0, 0⟩ : time.Time).nanos ≤ beforeEpoch.Properties.Time * 1000000) := by
  exact ⟨rfl, by decide⟩

end QuakeWatch
